import Mathlib

/-!
Verification of the dex_gartherer core (filter, cache, detector, collector,
distribution loop) against its natural-language specification.

Modelling conventions, used throughout:

* Rust `f64` fields (prices, liquidity, volumes, thresholds) are modelled as
  exact rationals (`ℚ`).  Every concrete input used below is exactly
  representable in binary64 and every comparison it exercises is far from the
  rounding granularity, so the rational model and the floating-point source
  agree on all of them.
* Rust `Instant`s are nanosecond counts (`Nat`).  `Instant::duration_since`
  saturates at zero, which coincides with truncated `Nat` subtraction.
* `Arc<PoolData>` sharing is made explicit: a *store* holds every record ever
  allocated behind an `Arc`, and a *handle* is an index into the store.  The
  cache map sends composite keys to handles.
* Fallible or external effects (fetch results, websocket send outcomes,
  inbound frames) are passed in as explicit oracle arguments.
-/

/-- Record type of src/models/pool.rs (`PoolData`). -/
structure PoolData where
  symbol : String
  chain : String
  dex : String
  pool_address : String
  pair : String
  price_usd : ℚ
  lp_reserve_usd : ℚ
  volume_24h : ℚ
  fee_tier : Option ℚ
  source : String
  timestamp : Int
deriving DecidableEq, Repr

/-- Record type of src/sources/upbit.rs (`CexPrice`). -/
structure CexPrice where
  symbol : String
  price_krw : ℚ
  price_usd : ℚ
  timestamp : Int
deriving DecidableEq, Repr

/-- Alert kind of src/models/alert.rs (`ArbType`). -/
inductive ArbType where
  | DexToDex
  | DexToCex
deriving DecidableEq, Repr

/-- Record type of src/models/alert.rs (`ArbitrageAlert`). -/
structure ArbitrageAlert where
  symbol : String
  arb_type : ArbType
  low_price : ℚ
  low_source : String
  high_price : ℚ
  high_source : String
  diff_pct : ℚ
  timestamp : Int
deriving DecidableEq, Repr

/-- Constructor `ArbitrageAlert::from_pools` (alert.rs lines 22-35).  The
`now` argument stands for the wall-clock read `chrono::Utc::now().timestamp()`. -/
def ArbitrageAlert.from_pools (now : Int) (low high : PoolData) : ArbitrageAlert :=
  { symbol := low.symbol
    arb_type := .DexToDex
    low_price := low.price_usd
    low_source := low.dex ++ ":" ++ low.pool_address
    high_price := high.price_usd
    high_source := high.dex ++ ":" ++ high.pool_address
    diff_pct := (high.price_usd - low.price_usd) / low.price_usd * 100
    timestamp := now }

/-- Filter state of src/services/filter.rs (`PoolFilter`). -/
structure PoolFilter where
  min_lp : ℚ
  min_volume : ℚ
  min_tx_count : Nat
deriving DecidableEq, Repr

/-- Predicate `PoolFilter::is_valid` (filter.rs lines 21-50), including the
price-based bypass of lines 23-27: any record with a positive price passes
before the liquidity rules are consulted. -/
def PoolFilter.is_valid (f : PoolFilter) (pool : PoolData) : Bool :=
  if 0 < pool.price_usd then true
  else if f.min_lp ≤ pool.lp_reserve_usd then decide (f.min_volume ≤ pool.volume_24h)
  else
    let tradeable := pool.lp_reserve_usd * (2 / 100 : ℚ)
    if 100 ≤ tradeable ∧ f.min_volume ≤ pool.volume_24h then true
    else false

/-- Function `PoolFilter::calculate_max_trade` (filter.rs lines 53-56). -/
def PoolFilter.calculate_max_trade (_f : PoolFilter) (pool : PoolData) : ℚ :=
  pool.lp_reserve_usd * (2 / 100 : ℚ)

/-- Validity predicate as the specification states it: the static liquidity
rule or the dynamic (2% tradeable) fallback, with no dependence on the price.
Stated from the spec wording, to be compared with `PoolFilter.is_valid`. -/
def is_valid_claimed (f : PoolFilter) (pool : PoolData) : Bool :=
  decide ((f.min_lp ≤ pool.lp_reserve_usd ∧ f.min_volume ≤ pool.volume_24h) ∨
    (pool.lp_reserve_usd < f.min_lp ∧ 100 ≤ pool.lp_reserve_usd * (2 / 100 : ℚ) ∧
      f.min_volume ≤ pool.volume_24h))

/-- Nanoseconds per second, for `Duration::from_secs`. -/
def nsPerSec : Nat := 1000000000

/-- Rust `as u64` reinterpretation of an `i64` value. -/
def asU64 (t : Int) : Nat := (t % ((2 : Int) ^ 64)).toNat

/-- Cache state of src/services/cache.rs (`PoolCache`), with `Arc` sharing
made explicit.  `store` is the heap of records allocated behind an `Arc`
(a handle is an index into it, and the store is append-only because inserting
wraps a fresh record in a fresh `Arc`); `entries` is the `HashMap` from
composite key to handle; `last_cleanup` is an `Instant` in nanoseconds. -/
structure PoolCache where
  store : List PoolData
  entries : List (String × Nat)
  ttl_secs : Nat
  last_cleanup : Nat
deriving DecidableEq, Repr

/-- Constructor `PoolCache::new` (cache.rs lines 14-20); `now` is the
`Instant::now()` stored as the initial `last_cleanup`. -/
def PoolCache.new (ttl_seconds : Nat) (now : Nat) : PoolCache :=
  { store := [], entries := [], ttl_secs := ttl_seconds, last_cleanup := now }

/-- Operation `PoolCache::get` (cache.rs lines 23-26): the returned `Arc`
clone is the handle stored in the map. -/
def PoolCache.get (s : PoolCache) (k : String) : Option Nat :=
  (s.entries.find? (fun e => e.1 == k)).map (fun e => e.2)

/-- Dereference a handle (reading through a shared `Arc`). -/
def PoolCache.deref (s : PoolCache) (a : Nat) : Option PoolData :=
  s.store[a]?

/-- `HashMap::insert` on the association list representation: replace the
binding in place when the key is present, append otherwise. -/
def setEntry (l : List (String × Nat)) (k : String) (a : Nat) : List (String × Nat) :=
  if l.any (fun e => e.1 == k) then
    l.map (fun e => if e.1 == k then (k, a) else e)
  else l ++ [(k, a)]

/-- Operation `PoolCache::insert` (cache.rs lines 29-32): allocates a fresh
`Arc` (a fresh store slot) and upserts the key binding. -/
def PoolCache.insert (s : PoolCache) (k : String) (pool : PoolData) : PoolCache :=
  { s with
    store := s.store ++ [pool]
    entries := setEntry s.entries k s.store.length }

/-- Operation `PoolCache::get_all` (cache.rs lines 35-38): clones every stored
handle.  The `_now` parameter records the call time; the source reads no clock
inside `get_all`, so the result cannot depend on it. -/
def PoolCache.get_all (s : PoolCache) (_now : Nat) : List Nat :=
  s.entries.map (fun e => e.2)

/-- Operation `PoolCache::len` (cache.rs lines 68-70). -/
def PoolCache.len (s : PoolCache) : Nat := s.entries.length

/-- Retain predicate of `PoolCache::cleanup_if_needed` (cache.rs lines 51-58),
transcribed verbatim.  `now` is the `Instant` captured at line 47; `t1` is the
`Instant::now()` hidden inside `now.elapsed()` and `t2` the explicit
`Instant::now()` of line 53, so `now ≤ t1 ≤ t2` on any real execution.  The
inner subtractions saturate at zero exactly as `Nat` subtraction does. -/
def retainPred (ttl_secs now t1 t2 : Nat) (pool : PoolData) : Bool :=
  let elapsed_secs := (t1 - now) / nsPerSec
  let d := elapsed_secs - asU64 pool.timestamp
  let age := now - (t2 - d * nsPerSec)
  decide (age < ttl_secs * nsPerSec)

/-- Operation `PoolCache::cleanup_if_needed` (cache.rs lines 41-66).
`tcheck` is the `Instant::now()` hidden in `last_cleanup.elapsed()` at
line 43; `now`, `t1`, `t2` are as in `retainPred`. -/
def PoolCache.cleanup_if_needed (s : PoolCache) (tcheck now t1 t2 : Nat) : PoolCache :=
  if tcheck - s.last_cleanup < 60 * nsPerSec then s
  else
    { s with
      entries := s.entries.filter (fun e =>
        match s.store[e.2]? with
        | some pool => retainPred s.ttl_secs now t1 t2 pool
        | none => true)
      last_cleanup := now }

/-- Well-formedness of the explicit-`Arc` cache model: every map binding
points into the store. -/
def PoolCache.WF (s : PoolCache) : Prop :=
  ∀ e ∈ s.entries, e.2 < s.store.length

/-- Detector state of src/services/detector.rs (`ArbitrageDetector`). -/
structure ArbitrageDetector where
  threshold : ℚ
deriving DecidableEq, Repr

/-- Symbols of a pool snapshot in first-occurrence order.  The source groups
through a `HashMap` whose iteration order is unspecified; first-occurrence
order is one admissible order, and within a group the `Vec` push order (the
input order, preserved by `List.filter` below) is exactly the source's. -/
def symbolsOf (pools : List PoolData) : List String :=
  pools.foldl (fun acc p => if p.symbol ∈ acc then acc else acc ++ [p.symbol]) []

/-- Pools of one symbol group, in input order. -/
def groupOf (pools : List PoolData) (s : String) : List PoolData :=
  pools.filter (fun p => p.symbol == s)

/-- Minimum scan of detector.rs lines 29-39 (`pool.price_usd < min_pool.price_usd`):
the first strictly-smaller element wins. -/
def minPool (p0 : PoolData) (rest : List PoolData) : PoolData :=
  rest.foldl (fun m p => if p.price_usd < m.price_usd then p else m) p0

/-- Maximum scan of detector.rs lines 29-39 (`pool.price_usd > max_pool.price_usd`). -/
def maxPool (p0 : PoolData) (rest : List PoolData) : PoolData :=
  rest.foldl (fun m p => if m.price_usd < p.price_usd then p else m) p0

/-- Per-group body of `ArbitrageDetector::detect_dex_dex` (detector.rs
lines 24-50): a group of fewer than two pools is skipped (`len() < 2` holds
exactly on `[]` and `[_]`); otherwise scan for the minimum- and
maximum-price members, skip if the minimum price is non-positive, and emit
one alert when the spread reaches the threshold. -/
def detectGroup (threshold : ℚ) (now : Int) : List PoolData → Option ArbitrageAlert
  | [] => none
  | [_] => none
  | p0 :: rest =>
    let mn := minPool p0 rest
    let mx := maxPool p0 rest
    if mn.price_usd ≤ 0 then none
    else if threshold ≤ (mx.price_usd - mn.price_usd) / mn.price_usd then
      some (ArbitrageAlert.from_pools now mn mx)
    else none

/-- Operation `ArbitrageDetector::detect_dex_dex` (detector.rs lines 16-53). -/
def ArbitrageDetector.detect_dex_dex (d : ArbitrageDetector) (now : Int)
    (pools : List PoolData) : List ArbitrageAlert :=
  (symbolsOf pools).filterMap
    (fun s => detectGroup d.threshold now (groupOf pools s))

/-- Group qualification exactly as the specification words it: at least two
members, a minimum price strictly above zero, and a spread of at least the
threshold.  Stated from the spec, to be compared with `detectGroup`. -/
def groupQualifies (th : ℚ) (g : List PoolData) : Prop :=
  2 ≤ g.length ∧
    ∃ mn ∈ g, (∀ p ∈ g, mn.price_usd ≤ p.price_usd) ∧ 0 < mn.price_usd ∧
      ∃ mx ∈ g, (∀ p ∈ g, p.price_usd ≤ mx.price_usd) ∧
        th ≤ (mx.price_usd - mn.price_usd) / mn.price_usd

instance : ∀ th g, Decidable (groupQualifies th g) := fun th g => by
  unfold groupQualifies; infer_instance

/-- DEX-side source label `format ... dex ... pool_address` of detector.rs. -/
def dexLabel (p : PoolData) : String := p.dex ++ ":" ++ p.pool_address

/-- CEX lookup built at detector.rs lines 59-61: collecting an iterator into
a `HashMap` keeps the last binding for a duplicated symbol. -/
def cexLookup (cexs : List CexPrice) (s : String) : Option CexPrice :=
  cexs.reverse.find? (fun c => c.symbol == s)

/-- DEX-CEX alert record as detector.rs lines 82-91 builds it: `diff_pct`
stores `diff * 100` where `diff = (high - low) / low`. -/
def mkCexAlert (now : Int) (sym : String) (lo hi : ℚ) (ls hs : String) :
    ArbitrageAlert :=
  { symbol := sym
    arb_type := .DexToCex
    low_price := lo
    low_source := ls
    high_price := hi
    high_source := hs
    diff_pct := (hi - lo) / lo * 100
    timestamp := now }

/-- Threshold gate of detector.rs lines 79-92 applied to an ordered
(low, high) pair. -/
def cexEmit (threshold : ℚ) (now : Int) (sym : String) (lo hi : ℚ)
    (ls hs : String) : Option ArbitrageAlert :=
  if threshold ≤ (hi - lo) / lo then some (mkCexAlert now sym lo hi ls hs)
  else none

/-- Per-pool body of `ArbitrageDetector::detect_dex_cex` (detector.rs
lines 63-94): look the symbol up in the CEX map, skip unless both prices are
positive, order the two prices by value — the DEX side labelled through
`dexLabel`, the CEX side with the fixed label "upbit" — and gate on the
spread. -/
def detectPairCex (threshold : ℚ) (now : Int) (cexs : List CexPrice)
    (p : PoolData) : Option ArbitrageAlert :=
  match cexLookup cexs p.symbol with
  | none => none
  | some cex =>
    if p.price_usd ≤ 0 ∨ cex.price_usd ≤ 0 then none
    else if p.price_usd < cex.price_usd then
      cexEmit threshold now p.symbol p.price_usd cex.price_usd (dexLabel p) "upbit"
    else
      cexEmit threshold now p.symbol cex.price_usd p.price_usd "upbit" (dexLabel p)

/-- Operation `ArbitrageDetector::detect_dex_cex` (detector.rs lines 56-97). -/
def ArbitrageDetector.detect_dex_cex (d : ArbitrageDetector) (now : Int)
    (pools : List PoolData) (cexs : List CexPrice) : List ArbitrageAlert :=
  pools.filterMap (detectPairCex d.threshold now cexs)

/-- Per-pool emission condition exactly as the specification words it: a CEX
price exists for the symbol, both prices are positive, and the spread of the
value-ordered pair reaches the threshold.  Stated from the spec, to be
compared with `detectPairCex`. -/
def cexAlertCond (th : ℚ) (cexs : List CexPrice) (p : PoolData) : Bool :=
  match cexLookup cexs p.symbol with
  | none => false
  | some cex =>
    decide (0 < p.price_usd) && decide (0 < cex.price_usd) &&
      decide (th ≤ (max p.price_usd cex.price_usd - min p.price_usd cex.price_usd) /
        min p.price_usd cex.price_usd)

/-- Outcome of one `tokio::time::timeout(10s, source.fetch_pools(symbol))`
call (collector.rs lines 105-108): the success branch `Ok(Ok(pools))`, the
provider-error branch `Ok(Err(e))`, or the timeout branch `Err(_)`. -/
inductive FetchOutcome where
  | success (pools : List PoolData)
  | fetchError
  | timedOut
deriving DecidableEq, Repr

/-- Cycle-local counters of collector.rs lines 78-80 (`total_pools`,
`successful`, `failed`), the atomics created afresh inside
`collect_progressive`. -/
structure CycleCounters where
  total_pools : Nat
  successful : Nat
  failed : Nat
deriving DecidableEq, Repr

/-- Composite cache key of collector.rs line 135. -/
def compositeKey (p : PoolData) : String :=
  p.source ++ ":" ++ p.chain ++ ":" ++ p.pool_address

/-- Handling of one (source, symbol) fetch result, collector.rs
lines 105-157: on success, filter, insert every surviving record under its
composite key and bump `total_pools` per record and `successful` once; on a
provider error or a timeout, bump `failed` once. -/
def processFetch (filter : PoolFilter) (cache : PoolCache) (c : CycleCounters)
    (r : FetchOutcome) : PoolCache × CycleCounters :=
  match r with
  | .success pools =>
      let filtered := pools.filter (fun p => filter.is_valid p)
      let cache2 := filtered.foldl (fun ch p => ch.insert (compositeKey p) p) cache
      (cache2,
        { c with
          total_pools := c.total_pools + filtered.length
          successful := c.successful + 1 })
  | .fetchError => (cache, { c with failed := c.failed + 1 })
  | .timedOut => (cache, { c with failed := c.failed + 1 })

/-- Per-(source, symbol) attempt handling lifted over an attempt oracle:
`attempts n` is the outcome the n-th fetch attempt would produce.  The source
performs exactly one attempt — collector.rs lines 101-158 contain no retry
loop — so only `attempts 0` is consulted. -/
def collectPair (filter : PoolFilter) (cache : PoolCache) (c : CycleCounters)
    (attempts : Nat → FetchOutcome) : PoolCache × CycleCounters :=
  processFetch filter cache c (attempts 0)

/-- Result type of collector.rs lines 25-30 (`CollectorResult`). -/
structure CollectorResult where
  total : Nat
  successful : Nat
  failed : Nat
deriving DecidableEq, Repr

/-- Shared counters of collector.rs lines 17-23 (`CollectorStats`), the
`Arc<CollectorStats>` read by the `/stats` endpoint. -/
structure CollectorStats where
  total_requests : Nat
  successful : Nat
  failed : Nat
  pools_collected : Nat
deriving DecidableEq, Repr

/-- Initial value `CollectorStats::default()` (collector.rs line 63). -/
def CollectorStats.init : CollectorStats :=
  { total_requests := 0, successful := 0, failed := 0, pools_collected := 0 }

/-- Whole-cycle semantics of `PoolCollector::collect_progressive`
(collector.rs lines 68-180), as one serialization of the concurrent symbol
tasks: atomic counter increments commute, so the final counter values and the
returned `CollectorResult` are those of the sequential fold.  `outcome src
sym` is the fetch outcome for that (source, symbol) pair.  The shared `stats`
field is threaded through untouched, mirroring the source body, which never
references `self.stats` — all increments go to the cycle-local atomics of
lines 78-80. -/
def collect_progressive (filter : PoolFilter) (sources : List String)
    (symbols : List String) (outcome : String → String → FetchOutcome)
    (cache : PoolCache) (stats : CollectorStats) :
    CollectorResult × PoolCache × CollectorStats :=
  let fin := symbols.foldl
    (fun acc sym =>
      sources.foldl (fun a src => processFetch filter a.1 a.2 (outcome src sym)) acc)
    (cache, { total_pools := 0, successful := 0, failed := 0 })
  (⟨fin.2.total_pools, fin.2.successful, fin.2.failed⟩, fin.1, stats)

/-- Outcome of one timed websocket send (main.rs lines 384-390): completed
with `Ok`, completed with a transport error, or hit the 5-second timeout. -/
inductive SendOutcome where
  | sent
  | errored
  | timedOut
deriving DecidableEq, Repr

/-- Fate of one iteration of the per-connection loop of `handle_socket`. -/
inductive LoopFate where
  | proceed
  | exitLoop
deriving DecidableEq, Repr

/-- Inbound websocket frame cases of main.rs lines 414-420: `Close` or stream
end terminates, `Pong` is consumed, anything else is ignored. -/
inductive InMsg where
  | closeFrame
  | pong
  | other
deriving DecidableEq, Repr

/-- Chunking `pools.chunks(50)` generalized over the chunk size
(main.rs line 374). -/
def chunksOf (n : Nat) : List PoolData → List (List PoolData)
  | [] => []
  | x :: xs => (x :: xs.take (n - 1)) :: chunksOf n (xs.drop (n - 1))
termination_by l => l.length
decreasing_by simp [List.length_drop]; omega

/-- Sequential chunk-send loop of main.rs lines 374-391, over the outcome
oracle `o`: starting at chunk index `i` with `k` chunks left, returns the
indices attempted in order and whether every send completed with `Ok`.  A
chunk whose send errors or times out is the last attempt — execution
`return`s, so no later chunk is attempted and nothing is retried or queued. -/
def sendChunksAux (o : Nat → SendOutcome) : Nat → Nat → List Nat × Bool
  | _, 0 => ([], true)
  | i, k + 1 =>
    match o i with
    | .sent =>
      let rest := sendChunksAux o (i + 1) k
      (i :: rest.1, rest.2)
    | _ => ([i], false)

/-- One `update_ticker` arm of `handle_socket` (main.rs lines 371-407): send
the snapshot in chunks of 50; any chunk failure exits the whole connection
handler (`return`).  If every chunk is delivered, run the detector and send
the alerts (only when non-empty) as one message whose result is discarded
(`let _ = ...` at line 401), after which the loop proceeds.  Returns the
attempted chunk indices, whether the alert message was attempted, and the
fate of the loop.  The iteration owns no buffer: its output carries no unsent
data into the next iteration. -/
def wsUpdateTick (d : ArbitrageDetector) (now : Int) (pools : List PoolData)
    (o : Nat → SendOutcome) (_alertSendOk : Bool) : List Nat × Bool × LoopFate :=
  let chunks := chunksOf 50 pools
  let run := sendChunksAux o 0 chunks.length
  if run.2 then
    let alerts := d.detect_dex_dex now pools
    (run.1, !alerts.isEmpty, .proceed)
  else (run.1, false, .exitLoop)

/-- The `heartbeat_ticker` arm of `handle_socket` (main.rs lines 409-412):
a failed `Ping` send exits the handler. -/
def wsHeartbeatTick (ok : Bool) : LoopFate :=
  if ok then .proceed else .exitLoop

/-- The inbound-message arm of `handle_socket` (main.rs lines 414-420). -/
def wsInbound (m : Option InMsg) : LoopFate :=
  match m with
  | none => .exitLoop
  | some .closeFrame => .exitLoop
  | some .pong => .proceed
  | some .other => .proceed

/-- Phase of one symbol task of `collect_progressive`: not yet started by the
stream, started and awaiting a semaphore permit (collector.rs line 94),
holding a permit with `fetching` recording whether a `fetch_pools` call is
currently in flight (the sources of one task are fetched sequentially, lines
101-158), or finished (permit dropped). -/
inductive TaskPhase where
  | pending
  | waiting
  | active (fetching : Bool)
  | finished
deriving DecidableEq, Repr, BEq

/-- Whether a task currently holds a semaphore permit. -/
def isActive : TaskPhase → Bool
  | .active _ => true
  | _ => false

/-- Whether a task has a fetch call in flight. -/
def isFetching : TaskPhase → Bool
  | .active true => true
  | _ => false

/-- Whether a task holds a permit without a fetch in flight. -/
def isIdleActive : TaskPhase → Bool
  | .active false => true
  | _ => false

/-- Whether the `buffer_unordered` stream has started and not yet retired
the task. -/
def isStarted : TaskPhase → Bool
  | .pending => false
  | .finished => false
  | _ => true

/-- Number of tasks currently holding a semaphore permit. -/
def activeCount (ts : List TaskPhase) : Nat := ts.countP isActive

/-- Number of fetch calls currently in flight. -/
def inFlightCount (ts : List TaskPhase) : Nat := ts.countP isFetching

/-- Number of tasks the `buffer_unordered` stream has started and not yet
retired. -/
def startedCount (ts : List TaskPhase) : Nat := ts.countP isStarted

/-- Interleaving semantics of `collect_progressive` (collector.rs lines
82-171): `buffer_unordered(5)` starts at most five symbol tasks at once; a
started task must acquire one of the `n` semaphore permits
(`Semaphore::new(10)` at line 62, acquired at line 94) before fetching, holds
it across its sequential per-source fetches, and releases it when it
finishes. -/
inductive CollectStep (n : Nat) : List TaskPhase → List TaskPhase → Prop
  | start (ts : List TaskPhase) (i : Nat) (h : ts[i]? = some .pending)
      (hb : startedCount ts < 5) : CollectStep n ts (ts.set i .waiting)
  | acquire (ts : List TaskPhase) (i : Nat) (h : ts[i]? = some .waiting)
      (hp : activeCount ts < n) : CollectStep n ts (ts.set i (.active false))
  | beginFetch (ts : List TaskPhase) (i : Nat) (h : ts[i]? = some (.active false)) :
      CollectStep n ts (ts.set i (.active true))
  | endFetch (ts : List TaskPhase) (i : Nat) (h : ts[i]? = some (.active true)) :
      CollectStep n ts (ts.set i (.active false))
  | finish (ts : List TaskPhase) (i : Nat) (h : ts[i]? = some (.active false)) :
      CollectStep n ts (ts.set i .finished)

/-- States reachable during one `collect_progressive` run with `n` permits. -/
inductive CollectReachable (n : Nat) (init : List TaskPhase) : List TaskPhase → Prop
  | refl : CollectReachable n init init
  | step {ts ts' : List TaskPhase} (hr : CollectReachable n init ts)
      (hs : CollectStep n ts ts') : CollectReachable n init ts'

/-- Initial task list: one pending task per symbol. -/
def initTasks (m : Nat) : List TaskPhase := List.replicate m .pending

/-- Permit count of the collector's limiter, `Semaphore::new(10)` at
collector.rs line 62. -/
def collectorPermits : Nat := 10

/-- Filter instance with the specification's example thresholds
(`min_liquidity = 10000`, `min_volume = 5000`). -/
def specFilter : PoolFilter :=
  { min_lp := 10000, min_volume := 5000, min_tx_count := 0 }

/-- Record with 40 USD of liquidity, no volume, and a positive price. -/
def thinPricedPool : PoolData :=
  { symbol := "TKN", chain := "eth", dex := "uni", pool_address := "0xaa"
    pair := "TKN/USDC", price_usd := 1, lp_reserve_usd := 40, volume_24h := 0
    fee_tier := none, source := "gecko", timestamp := 1700000000 }

/-- Healthy sample record used for cache scenarios. -/
def samplePool : PoolData :=
  { symbol := "ETH", chain := "eth", dex := "uni", pool_address := "0xbb"
    pair := "ETH/USDC", price_usd := 3000, lp_reserve_usd := 500000
    volume_24h := 100000, fee_tier := none, source := "gecko"
    timestamp := 1700000000 }

/-- ETH pool priced 3000 for the DEX-DEX boundary scenario. -/
def ethPoolLow : PoolData :=
  { symbol := "ETH", chain := "eth", dex := "uni", pool_address := "0xlo"
    pair := "ETH/USDC", price_usd := 3000, lp_reserve_usd := 500000
    volume_24h := 100000, fee_tier := none, source := "gecko"
    timestamp := 1700000000 }

/-- ETH pool priced 3090 for the DEX-DEX boundary scenario. -/
def ethPoolHigh : PoolData :=
  { symbol := "ETH", chain := "eth", dex := "sushi", pool_address := "0xhi"
    pair := "ETH/USDC", price_usd := 3090, lp_reserve_usd := 400000
    volume_24h := 90000, fee_tier := none, source := "gecko"
    timestamp := 1700000000 }

/-- DEX pool priced 95 for the DEX-CEX scenario. -/
def dexPool95 : PoolData :=
  { symbol := "SOL", chain := "sol", dex := "ray", pool_address := "0xcc"
    pair := "SOL/USDC", price_usd := 95, lp_reserve_usd := 200000
    volume_24h := 50000, fee_tier := none, source := "gecko"
    timestamp := 1700000000 }

/-- CEX price 100 for the DEX-CEX scenario. -/
def cexPrice100 : CexPrice :=
  { symbol := "SOL", price_krw := 140000, price_usd := 100
    timestamp := 1700000000 }

/-!  Theorems.  -/

/-- C1 counterexample: the filter's price bypass (filter.rs lines 23-27)
accepts a record with 40 USD liquidity and zero volume as soon as its price
is positive, while the claimed liquidity-only rule rejects it — so validity
is not equivalent to the claimed rule, and such a record is *not* invalid
regardless of its price. -/
theorem c1_counterexample :
    specFilter.is_valid thinPricedPool = true ∧
    is_valid_claimed specFilter thinPricedPool = false := by
  refine ⟨by decide, ?_⟩
  unfold is_valid_claimed
  rw [decide_eq_false_iff_not]
  unfold specFilter thinPricedPool
  norm_num

/-- C1 amended: is_valid returns true if and only if the price is positive,
or the record passes the static liquidity rule, or it passes the dynamic 2%
fallback rule; a record with liquidity 40 and volume 0 is invalid only when
its price is not positive. -/
theorem c1_filter_validity (f : PoolFilter) (p : PoolData) :
    f.is_valid p = true ↔
      (0 < p.price_usd ∨
        (f.min_lp ≤ p.lp_reserve_usd ∧ f.min_volume ≤ p.volume_24h) ∨
        (p.lp_reserve_usd < f.min_lp ∧ 100 ≤ p.lp_reserve_usd * (2 / 100 : ℚ) ∧
          f.min_volume ≤ p.volume_24h)) := by
  simp only [PoolFilter.is_valid]
  split_ifs with h1 h2 h3
  · simp [h1]
  · rw [decide_eq_true_iff]
    constructor
    · intro hv
      exact Or.inr (Or.inl ⟨h2, hv⟩)
    · rintro (h | ⟨_, hv⟩ | ⟨_, _, hv⟩)
      · exact absurd h h1
      · exact hv
      · exact hv
  · simp only [true_iff]
    exact Or.inr (Or.inr ⟨lt_of_not_le h2, h3.1, h3.2⟩)
  · constructor
    · intro h
      exact absurd h (by simp)
    · rintro (h | ⟨hle, _⟩ | ⟨_, h100, hv⟩)
      · exact absurd h h1
      · exact absurd hle h2
      · exact absurd ⟨h100, hv⟩ h3

/-- C2 counterexample: with TTL = 120 s, the entry inserted (conceptually at
t0 = 1000 s) is still returned by get_all called at 1121 s > t0 + TTL,
because get_all (cache.rs lines 35-38) clones every stored handle and applies
no TTL check at all. -/
theorem c2_counterexample :
    ((PoolCache.new 120 0).insert "gecko:eth:0xbb" samplePool).get_all
        (1121 * nsPerSec) = [0] ∧
    ((PoolCache.new 120 0).insert "gecko:eth:0xbb" samplePool).deref 0 =
      some samplePool ∧
    ((PoolCache.new 120 0).insert "gecko:eth:0xbb" samplePool).ttl_secs = 120 := by
  exact ⟨by decide, by decide, rfl⟩

/-- Helper: the handle chosen by setEntry is among the mapped handles. -/
theorem setEntry_snd_mem (l : List (String × Nat)) (k : String) (a : Nat) :
    a ∈ (setEntry l k a).map (fun e => e.2) := by
  unfold setEntry
  split_ifs with h
  · rcases List.any_eq_true.mp h with ⟨e, he, hek⟩
    have hk : (k, a) ∈ l.map (fun e => if e.1 == k then (k, a) else e) :=
      List.mem_map.mpr ⟨e, he, by simp [hek]⟩
    exact List.mem_map.mpr ⟨(k, a), hk, rfl⟩
  · simp

/-- C2 amended: get_all returns handles to exactly the stored entries and is
independent of the call time; in particular an inserted entry is present in
get_all at *every* later time — before and after t0 + TTL alike — until it is
overwritten or purged, because TTL plays no part in get_all. -/
theorem c2_get_all_ignores_ttl (s : PoolCache) (k : String) (p : PoolData)
    (t t' : Nat) :
    (s.insert k p).get_all t = (s.insert k p).get_all t' ∧
    s.get_all t = s.entries.map (fun e => e.2) ∧
    s.store.length ∈ (s.insert k p).get_all t ∧
    (s.insert k p).deref s.store.length = some p := by
  refine ⟨rfl, rfl, ?_, ?_⟩
  · exact setEntry_snd_mem s.entries k s.store.length
  · unfold PoolCache.deref PoolCache.insert
    simp

/-- Helper: cleanup_if_needed never touches the store (it only drops map
bindings). -/
theorem cleanup_store_eq (s : PoolCache) (tc now t1 t2 : Nat) :
    (s.cleanup_if_needed tc now t1 t2).store = s.store := by
  unfold PoolCache.cleanup_if_needed
  split_ifs <;> rfl

/-- C9: records handed out by the cache are immutable through their handles.
A later insert — of the same or another key — or a purge replaces or drops
map bindings but never modifies the record reachable through any previously
obtained handle, which continues to dereference to the original record. -/
theorem c9_handle_immutability (s : PoolCache) (k k2 : String) (a : Nat)
    (p2 : PoolData) (tc now t1 t2 tq : Nat) (hwf : s.WF)
    (ha : s.get k = some a ∨ a ∈ s.get_all tq) :
    (s.insert k2 p2).deref a = s.deref a ∧
    (s.cleanup_if_needed tc now t1 t2).deref a = s.deref a := by
  have halt : a < s.store.length := by
    rcases ha with h | h
    · unfold PoolCache.get at h
      rcases Option.map_eq_some'.mp h with ⟨e, hfind, hsnd⟩
      have he : e ∈ s.entries := List.mem_of_find?_eq_some hfind
      exact hsnd ▸ hwf e he
    · unfold PoolCache.get_all at h
      rcases List.mem_map.mp h with ⟨e, he, hsnd⟩
      exact hsnd ▸ hwf e he
  constructor
  · unfold PoolCache.insert PoolCache.deref
    simp only
    exact List.getElem?_append_left halt
  · unfold PoolCache.deref
    rw [cleanup_store_eq]

/-- C9 witness: concrete one-entry cache; the handle obtained by get still
dereferences to the original record after an overwriting insert and after a
purge. -/
theorem c9_witness :
    ((((PoolCache.new 120 0).insert "gecko:eth:0xbb" samplePool).insert
        "gecko:eth:0xbb" thinPricedPool).deref 0 =
      ((PoolCache.new 120 0).insert "gecko:eth:0xbb" samplePool).deref 0) ∧
    ((((PoolCache.new 120 0).insert "gecko:eth:0xbb" samplePool).cleanup_if_needed
        (100 * nsPerSec) (100 * nsPerSec) (100 * nsPerSec) (100 * nsPerSec)).deref 0 =
      ((PoolCache.new 120 0).insert "gecko:eth:0xbb" samplePool).deref 0) :=
  c9_handle_immutability ((PoolCache.new 120 0).insert "gecko:eth:0xbb" samplePool)
    "gecko:eth:0xbb" "gecko:eth:0xbb" 0 thinPricedPool
    (100 * nsPerSec) (100 * nsPerSec) (100 * nsPerSec) (100 * nsPerSec) 0
    (by unfold PoolCache.WF; decide) (Or.inl (by decide))

/-- C7: the purge removes nothing.  Whenever the retain scan's elapsed time
in whole seconds does not exceed a pool's (epoch-seconds) timestamp — true on
every real execution, since the scan takes far less than a second while the
timestamps are around 1.7e9 — the retain predicate of cache.rs lines 51-58
computes an age of zero, so expired entries survive the scan; the early-return
branch removes nothing either. -/
theorem c7_cleanup_removes_nothing (s : PoolCache) (tc now t1 t2 : Nat)
    (h2 : now ≤ t2) (h3 : 0 < s.ttl_secs)
    (h4 : ∀ e ∈ s.entries, ∀ p, s.store[e.2]? = some p →
      (t1 - now) / nsPerSec ≤ asU64 p.timestamp) :
    (s.cleanup_if_needed tc now t1 t2).entries = s.entries := by
  unfold PoolCache.cleanup_if_needed
  split_ifs with hif
  · rfl
  · simp only
    apply List.filter_eq_self.mpr
    intro e he
    cases hstore : s.store[e.2]? with
    | none => simp [hstore]
    | some p =>
      simp only [hstore]
      unfold retainPred
      have hd : (t1 - now) / nsPerSec - asU64 p.timestamp = 0 :=
        Nat.sub_eq_zero_of_le (h4 e he p hstore)
      simp only [hd, Nat.zero_mul, Nat.sub_zero]
      rw [decide_eq_true_iff]
      have hage : now - t2 = 0 := Nat.sub_eq_zero_of_le h2
      rw [hage]
      exact Nat.mul_pos h3 (by norm_num [nsPerSec])

/-- C7 witness: a cache holding a single record whose age vastly exceeds the
120 s TTL, purged 100000 s after the previous purge (well past the 60 s
interval, so the scan does run) — and the stale entry is still retained. -/
theorem c7_witness :
    (60 * nsPerSec ≤ 100000 * nsPerSec - (PoolCache.mk [samplePool]
        [("gecko:eth:0xbb", 0)] 120 0).last_cleanup) ∧
    ((PoolCache.mk [samplePool] [("gecko:eth:0xbb", 0)] 120 0).cleanup_if_needed
        (100000 * nsPerSec) (100000 * nsPerSec) (100000 * nsPerSec)
        (100000 * nsPerSec)).entries =
      (PoolCache.mk [samplePool] [("gecko:eth:0xbb", 0)] 120 0).entries :=
  ⟨by decide,
    c7_cleanup_removes_nothing (PoolCache.mk [samplePool] [("gecko:eth:0xbb", 0)] 120 0)
      (100000 * nsPerSec) (100000 * nsPerSec) (100000 * nsPerSec) (100000 * nsPerSec)
      (Nat.le_refl _) (by decide)
      (by
        intro e he p hp
        simp only [List.mem_singleton] at he
        subst he
        simp only [List.getElem?_cons_zero, Option.some_inj] at hp
        subst hp
        simp)⟩

/-- Helper: the minimum scan returns a member of the group. -/
theorem minPool_mem (rest : List PoolData) (p0 : PoolData) :
    minPool p0 rest ∈ p0 :: rest := by
  induction rest generalizing p0 with
  | nil => simp [minPool]
  | cons q rest ih =>
    rcases List.mem_cons.mp (ih (if q.price_usd < p0.price_usd then q else p0)) with h' | h'
    · refine List.mem_cons.mpr ?_
      rw [show minPool p0 (q :: rest) =
        minPool (if q.price_usd < p0.price_usd then q else p0) rest from rfl, h']
      split_ifs
      · exact Or.inr (List.mem_cons_self _ _)
      · exact Or.inl rfl
    · rw [show minPool p0 (q :: rest) =
        minPool (if q.price_usd < p0.price_usd then q else p0) rest from rfl]
      exact List.mem_cons_of_mem _ (List.mem_cons_of_mem _ h')

/-- Helper: the minimum scan's price bounds every member's price from below. -/
theorem minPool_le (rest : List PoolData) (p0 : PoolData) :
    ∀ p ∈ p0 :: rest, (minPool p0 rest).price_usd ≤ p.price_usd := by
  induction rest generalizing p0 with
  | nil =>
    intro p hp
    rw [List.mem_singleton] at hp
    subst hp
    exact le_refl _
  | cons q rest ih =>
    intro p hp
    have hstep : (if q.price_usd < p0.price_usd then q else p0).price_usd ≤ p0.price_usd ∧
        (if q.price_usd < p0.price_usd then q else p0).price_usd ≤ q.price_usd := by
      split_ifs with h
      · exact ⟨le_of_lt h, le_refl _⟩
      · exact ⟨le_refl _, le_of_not_lt h⟩
    have hm := ih (if q.price_usd < p0.price_usd then q else p0)
    have hself := hm _ (List.mem_cons_self _ _)
    rcases List.mem_cons.mp hp with h' | h'
    · subst h'
      exact le_trans hself hstep.1
    · rcases List.mem_cons.mp h' with h'' | h''
      · subst h''
        exact le_trans hself hstep.2
      · exact hm p (List.mem_cons_of_mem _ h'')

/-- Helper: the maximum scan returns a member of the group. -/
theorem maxPool_mem (rest : List PoolData) (p0 : PoolData) :
    maxPool p0 rest ∈ p0 :: rest := by
  induction rest generalizing p0 with
  | nil => simp [maxPool]
  | cons q rest ih =>
    rcases List.mem_cons.mp (ih (if p0.price_usd < q.price_usd then q else p0)) with h' | h'
    · refine List.mem_cons.mpr ?_
      rw [show maxPool p0 (q :: rest) =
        maxPool (if p0.price_usd < q.price_usd then q else p0) rest from rfl, h']
      split_ifs
      · exact Or.inr (List.mem_cons_self _ _)
      · exact Or.inl rfl
    · rw [show maxPool p0 (q :: rest) =
        maxPool (if p0.price_usd < q.price_usd then q else p0) rest from rfl]
      exact List.mem_cons_of_mem _ (List.mem_cons_of_mem _ h')

/-- Helper: the maximum scan's price bounds every member's price from above. -/
theorem maxPool_ge (rest : List PoolData) (p0 : PoolData) :
    ∀ p ∈ p0 :: rest, p.price_usd ≤ (maxPool p0 rest).price_usd := by
  induction rest generalizing p0 with
  | nil =>
    intro p hp
    rw [List.mem_singleton] at hp
    subst hp
    exact le_refl _
  | cons q rest ih =>
    intro p hp
    have hstep : p0.price_usd ≤ (if p0.price_usd < q.price_usd then q else p0).price_usd ∧
        q.price_usd ≤ (if p0.price_usd < q.price_usd then q else p0).price_usd := by
      split_ifs with h
      · exact ⟨le_of_lt h, le_refl _⟩
      · exact ⟨le_refl _, le_of_not_lt h⟩
    have hm := ih (if p0.price_usd < q.price_usd then q else p0)
    have hself := hm _ (List.mem_cons_self _ _)
    rcases List.mem_cons.mp hp with h' | h'
    · subst h'
      exact le_trans hstep.1 hself
    · rcases List.mem_cons.mp h' with h'' | h''
      · subst h''
        exact le_trans hstep.2 hself
      · exact hm p (List.mem_cons_of_mem _ h'')

/-- Helper: detectGroup emits exactly on the specification's qualification
condition. -/
theorem detectGroup_isSome_iff (th : ℚ) (now : Int) (g : List PoolData) :
    (detectGroup th now g).isSome = true ↔ groupQualifies th g := by
  rcases g with _ | ⟨p0, _ | ⟨q, rest⟩⟩
  · simp only [detectGroup, Option.isSome_none, Bool.false_eq_true, false_iff]
    rintro ⟨h2, -⟩
    simp at h2
  · simp only [detectGroup, Option.isSome_none, Bool.false_eq_true, false_iff]
    rintro ⟨h2, -⟩
    simp at h2
  · show (if (minPool p0 (q :: rest)).price_usd ≤ 0 then none
      else if th ≤ ((maxPool p0 (q :: rest)).price_usd - (minPool p0 (q :: rest)).price_usd) /
          (minPool p0 (q :: rest)).price_usd then
        some (ArbitrageAlert.from_pools now (minPool p0 (q :: rest)) (maxPool p0 (q :: rest)))
      else none).isSome = true ↔ _
    by_cases hpos : (minPool p0 (q :: rest)).price_usd ≤ 0
    · rw [if_pos hpos]
      simp only [Option.isSome_none, Bool.false_eq_true, false_iff]
      rintro ⟨-, mn', hmem', hmin', hpos', -⟩
      exact absurd (lt_of_lt_of_le hpos' (hmin' _ (minPool_mem (q :: rest) p0)))
        (not_lt.mpr hpos)
    · rw [if_neg hpos]
      by_cases hth : th ≤ ((maxPool p0 (q :: rest)).price_usd -
          (minPool p0 (q :: rest)).price_usd) / (minPool p0 (q :: rest)).price_usd
      · rw [if_pos hth]
        simp only [Option.isSome_some, true_iff]
        exact ⟨by simp, minPool p0 (q :: rest), minPool_mem (q :: rest) p0,
          minPool_le (q :: rest) p0, lt_of_not_le hpos, maxPool p0 (q :: rest),
          maxPool_mem (q :: rest) p0, maxPool_ge (q :: rest) p0, hth⟩
      · rw [if_neg hth]
        simp only [Option.isSome_none, Bool.false_eq_true, false_iff]
        rintro ⟨-, mn', hmn'm, hmn'le, hmn'pos, mx', hmx'm, hmx'ge, hth'⟩
        have e1 : mn'.price_usd = (minPool p0 (q :: rest)).price_usd :=
          le_antisymm (hmn'le _ (minPool_mem (q :: rest) p0))
            (minPool_le (q :: rest) p0 mn' hmn'm)
        have e2 : mx'.price_usd = (maxPool p0 (q :: rest)).price_usd :=
          le_antisymm (maxPool_ge (q :: rest) p0 mx' hmx'm)
            (hmx'ge _ (maxPool_mem (q :: rest) p0))
        rw [e1, e2] at hth'
        exact hth hth'

/-- Helper: dissection of a successful detectGroup emission. -/
theorem detectGroup_some_spec (th : ℚ) (now : Int) (g : List PoolData)
    (a : ArbitrageAlert) (h : detectGroup th now g = some a) :
    ∃ mn ∈ g, ∃ mx ∈ g, (∀ p ∈ g, mn.price_usd ≤ p.price_usd) ∧
      (∀ p ∈ g, p.price_usd ≤ mx.price_usd) ∧ 0 < mn.price_usd ∧
      th ≤ (mx.price_usd - mn.price_usd) / mn.price_usd ∧
      a = ArbitrageAlert.from_pools now mn mx := by
  rcases g with _ | ⟨p0, _ | ⟨q, rest⟩⟩
  · exact absurd h (by simp [detectGroup])
  · exact absurd h (by simp [detectGroup])
  · rw [show detectGroup th now (p0 :: q :: rest) =
      (if (minPool p0 (q :: rest)).price_usd ≤ 0 then none
       else if th ≤ ((maxPool p0 (q :: rest)).price_usd -
          (minPool p0 (q :: rest)).price_usd) / (minPool p0 (q :: rest)).price_usd then
         some (ArbitrageAlert.from_pools now (minPool p0 (q :: rest)) (maxPool p0 (q :: rest)))
       else none) from rfl] at h
    by_cases hpos : (minPool p0 (q :: rest)).price_usd ≤ 0
    · rw [if_pos hpos] at h
      cases h
    · rw [if_neg hpos] at h
      by_cases hth : th ≤ ((maxPool p0 (q :: rest)).price_usd -
          (minPool p0 (q :: rest)).price_usd) / (minPool p0 (q :: rest)).price_usd
      · rw [if_pos hth] at h
        exact ⟨minPool p0 (q :: rest), minPool_mem (q :: rest) p0,
          maxPool p0 (q :: rest), maxPool_mem (q :: rest) p0,
          minPool_le (q :: rest) p0, maxPool_ge (q :: rest) p0,
          lt_of_not_le hpos, hth, (Option.some_inj.mp h).symm⟩
      · rw [if_neg hth] at h
        cases h

/-- Helper: length of a filterMap as a countP. -/
theorem length_filterMap_eq_countP {α β : Type} (f : α → Option β) (l : List α) :
    (l.filterMap f).length = l.countP (fun x => (f x).isSome) := by
  induction l with
  | nil => rfl
  | cons x xs ih =>
    cases hfx : f x with
    | none => simp [List.filterMap_cons, hfx, List.countP_cons, ih]
    | some b => simp [List.filterMap_cons, hfx, List.countP_cons, ih]

/-- C4: detect_dex_dex groups pools by symbol and emits exactly one DexToDex
alert per group with at least two members, positive minimum price and spread
at least the threshold; the alert carries the group's minimum price as
low_price, its maximum as high_price, diff_pct = spread * 100 and sources
"dex:pool_address"; a group of fewer than two pools never alerts; and pools
priced 3000/3090 give exactly one alert at threshold 0.03 and none at
0.031. -/
theorem c4_detect_dex_dex (d : ArbitrageDetector) (now : Int) (pools : List PoolData) :
    ((d.detect_dex_dex now pools).length =
      ((symbolsOf pools).filter
        (fun s => decide (groupQualifies d.threshold (groupOf pools s)))).length) ∧
    (∀ a ∈ d.detect_dex_dex now pools, ∃ s ∈ symbolsOf pools,
      groupQualifies d.threshold (groupOf pools s) ∧
      ∃ mn ∈ groupOf pools s, ∃ mx ∈ groupOf pools s,
        (∀ p ∈ groupOf pools s, mn.price_usd ≤ p.price_usd) ∧
        (∀ p ∈ groupOf pools s, p.price_usd ≤ mx.price_usd) ∧
        a = ArbitrageAlert.from_pools now mn mx ∧
        a.arb_type = ArbType.DexToDex ∧
        a.low_price = mn.price_usd ∧
        a.high_price = mx.price_usd ∧
        a.diff_pct = (mx.price_usd - mn.price_usd) / mn.price_usd * 100 ∧
        a.low_source = mn.dex ++ ":" ++ mn.pool_address ∧
        a.high_source = mx.dex ++ ":" ++ mx.pool_address) ∧
    (∀ th' now' p, (ArbitrageDetector.mk th').detect_dex_dex now' [p] = []) ∧
    ((ArbitrageDetector.mk (3 / 100)).detect_dex_dex 0 [ethPoolLow, ethPoolHigh] =
      [ArbitrageAlert.from_pools 0 ethPoolLow ethPoolHigh]) ∧
    ((ArbitrageAlert.from_pools 0 ethPoolLow ethPoolHigh).low_price = 3000 ∧
      (ArbitrageAlert.from_pools 0 ethPoolLow ethPoolHigh).high_price = 3090) ∧
    ((ArbitrageDetector.mk (31 / 1000)).detect_dex_dex 0 [ethPoolLow, ethPoolHigh] = []) := by
  refine ⟨?_, ?_, ?_, ?_, ⟨rfl, rfl⟩, ?_⟩
  · unfold ArbitrageDetector.detect_dex_dex
    rw [length_filterMap_eq_countP, ← List.countP_eq_length_filter]
    apply List.countP_congr
    intro s _
    simp only [decide_eq_true_eq]
    exact detectGroup_isSome_iff d.threshold now (groupOf pools s)
  · intro a ha
    unfold ArbitrageDetector.detect_dex_dex at ha
    rcases List.mem_filterMap.mp ha with ⟨s, hs, hsome⟩
    have hq : groupQualifies d.threshold (groupOf pools s) :=
      (detectGroup_isSome_iff d.threshold now _).mp (by rw [hsome]; rfl)
    rcases detectGroup_some_spec _ _ _ _ hsome with
      ⟨mn, hmnm, mx, hmxm, hmnle, hmxge, -, -, ha'⟩
    subst ha'
    exact ⟨s, hs, hq, mn, hmnm, mx, hmxm, hmnle, hmxge, rfl, rfl, rfl, rfl, rfl, rfl, rfl⟩
  · intro th' now' p
    unfold ArbitrageDetector.detect_dex_dex
    simp [symbolsOf, groupOf, detectGroup]
  · norm_num [ArbitrageDetector.detect_dex_dex, symbolsOf, groupOf, detectGroup,
      minPool, maxPool, ethPoolLow, ethPoolHigh, ArbitrageAlert.from_pools,
      List.filterMap_cons, List.filterMap_nil, List.filter_cons, List.filter_nil]
  · norm_num [ArbitrageDetector.detect_dex_dex, symbolsOf, groupOf, detectGroup,
      minPool, maxPool, ethPoolLow, ethPoolHigh,
      List.filterMap_cons, List.filterMap_nil, List.filter_cons, List.filter_nil]

/-- C4 witness: the per-alert clause of c4_detect_dex_dex applied to the
boundary alert emitted on the 3000/3090 snapshot at threshold 0.03. -/
theorem c4_witness :
    ∃ s ∈ symbolsOf [ethPoolLow, ethPoolHigh],
      groupQualifies (ArbitrageDetector.mk (3 / 100)).threshold
        (groupOf [ethPoolLow, ethPoolHigh] s) ∧
      ∃ mn ∈ groupOf [ethPoolLow, ethPoolHigh] s,
        ∃ mx ∈ groupOf [ethPoolLow, ethPoolHigh] s,
          (∀ p ∈ groupOf [ethPoolLow, ethPoolHigh] s, mn.price_usd ≤ p.price_usd) ∧
          (∀ p ∈ groupOf [ethPoolLow, ethPoolHigh] s, p.price_usd ≤ mx.price_usd) ∧
          ArbitrageAlert.from_pools 0 ethPoolLow ethPoolHigh =
            ArbitrageAlert.from_pools 0 mn mx ∧
          (ArbitrageAlert.from_pools 0 ethPoolLow ethPoolHigh).arb_type = ArbType.DexToDex ∧
          (ArbitrageAlert.from_pools 0 ethPoolLow ethPoolHigh).low_price = mn.price_usd ∧
          (ArbitrageAlert.from_pools 0 ethPoolLow ethPoolHigh).high_price = mx.price_usd ∧
          (ArbitrageAlert.from_pools 0 ethPoolLow ethPoolHigh).diff_pct =
            (mx.price_usd - mn.price_usd) / mn.price_usd * 100 ∧
          (ArbitrageAlert.from_pools 0 ethPoolLow ethPoolHigh).low_source =
            mn.dex ++ ":" ++ mn.pool_address ∧
          (ArbitrageAlert.from_pools 0 ethPoolLow ethPoolHigh).high_source =
            mx.dex ++ ":" ++ mx.pool_address :=
  (c4_detect_dex_dex (ArbitrageDetector.mk (3 / 100)) 0 [ethPoolLow, ethPoolHigh]).2.1
    (ArbitrageAlert.from_pools 0 ethPoolLow ethPoolHigh)
    (by
      rw [(c4_detect_dex_dex (ArbitrageDetector.mk (3 / 100)) 0
        [ethPoolLow, ethPoolHigh]).2.2.2.1]
      exact List.mem_singleton.mpr rfl)

/-- Helper: detectPairCex emits exactly on the claimed per-pool condition. -/
theorem detectPairCex_isSome (th : ℚ) (now : Int) (cexs : List CexPrice)
    (p : PoolData) :
    (detectPairCex th now cexs p).isSome = cexAlertCond th cexs p := by
  unfold detectPairCex cexAlertCond
  cases h : cexLookup cexs p.symbol with
  | none => rfl
  | some cex =>
    simp only []
    by_cases hneg : p.price_usd ≤ 0 ∨ cex.price_usd ≤ 0
    · rw [if_pos hneg]
      rcases hneg with h' | h'
      · simp [not_lt.mpr h']
      · simp [not_lt.mpr h']
    · rw [if_neg hneg]
      push_neg at hneg
      obtain ⟨hp, hc⟩ := hneg
      by_cases hlt : p.price_usd < cex.price_usd
      · rw [if_pos hlt]
        unfold cexEmit
        rw [min_eq_left (le_of_lt hlt), max_eq_right (le_of_lt hlt)]
        simp only [hp, hc, decide_True, Bool.true_and]
        split_ifs with hth <;> simp [hth]
      · rw [if_neg hlt]
        unfold cexEmit
        rw [min_eq_right (le_of_not_lt hlt), max_eq_left (le_of_not_lt hlt)]
        simp only [hp, hc, decide_True, Bool.true_and]
        split_ifs with hth <;> simp [hth]

/-- Helper: dissection of a successful detectPairCex emission. -/
theorem detectPairCex_some_spec (th : ℚ) (now : Int) (cexs : List CexPrice)
    (p : PoolData) (a : ArbitrageAlert) (h : detectPairCex th now cexs p = some a) :
    ∃ cex, cexLookup cexs p.symbol = some cex ∧ 0 < p.price_usd ∧ 0 < cex.price_usd ∧
      th ≤ (max p.price_usd cex.price_usd - min p.price_usd cex.price_usd) /
        min p.price_usd cex.price_usd ∧
      a.symbol = p.symbol ∧ a.arb_type = ArbType.DexToCex ∧
      a.low_price = min p.price_usd cex.price_usd ∧
      a.high_price = max p.price_usd cex.price_usd ∧
      a.diff_pct = (a.high_price - a.low_price) / a.low_price * 100 ∧
      ((a.low_source = dexLabel p ∧ a.high_source = "upbit" ∧ a.low_price = p.price_usd) ∨
       (a.low_source = "upbit" ∧ a.high_source = dexLabel p ∧
         a.low_price = cex.price_usd)) := by
  unfold detectPairCex at h
  cases hl : cexLookup cexs p.symbol with
  | none => rw [hl] at h; cases h
  | some cex =>
    rw [hl] at h
    simp only [] at h
    by_cases hneg : p.price_usd ≤ 0 ∨ cex.price_usd ≤ 0
    · rw [if_pos hneg] at h
      cases h
    · rw [if_neg hneg] at h
      push_neg at hneg
      obtain ⟨hp, hc⟩ := hneg
      by_cases hlt : p.price_usd < cex.price_usd
      · rw [if_pos hlt] at h
        unfold cexEmit at h
        by_cases hth : th ≤ (cex.price_usd - p.price_usd) / p.price_usd
        · rw [if_pos hth] at h
          have ha := (Option.some_inj.mp h).symm
          subst ha
          refine ⟨cex, rfl, hp, hc, ?_, rfl, rfl, ?_, ?_, rfl,
            Or.inl ⟨rfl, rfl, ?_⟩⟩
          · rw [min_eq_left (le_of_lt hlt), max_eq_right (le_of_lt hlt)]
            exact hth
          · rw [min_eq_left (le_of_lt hlt)]
            rfl
          · rw [max_eq_right (le_of_lt hlt)]
            rfl
          · rfl
        · rw [if_neg hth] at h
          cases h
      · rw [if_neg hlt] at h
        unfold cexEmit at h
        by_cases hth : th ≤ (p.price_usd - cex.price_usd) / cex.price_usd
        · rw [if_pos hth] at h
          have ha := (Option.some_inj.mp h).symm
          subst ha
          refine ⟨cex, rfl, hp, hc, ?_, rfl, rfl, ?_, ?_, rfl,
            Or.inr ⟨rfl, rfl, ?_⟩⟩
          · rw [min_eq_right (le_of_not_lt hlt), max_eq_left (le_of_not_lt hlt)]
            exact hth
          · rw [min_eq_right (le_of_not_lt hlt)]
            rfl
          · rw [max_eq_left (le_of_not_lt hlt)]
            rfl
          · rfl
        · rw [if_neg hth] at h
          cases h

/-- C5: detect_dex_cex emits a DexToCex alert for a pool exactly when a CEX
price exists for its symbol, both prices are positive, and the value-ordered
spread reaches the threshold; the DEX side is labelled "dex:pool_address",
the CEX side carries the fixed label "upbit", and diff_pct = spread * 100;
DEX 95 vs CEX 100 at threshold 0.03 yields one alert with low 95, high 100
and diff_pct = 100/19 ≈ 5.26. -/
theorem c5_detect_dex_cex (d : ArbitrageDetector) (now : Int)
    (pools : List PoolData) (cexs : List CexPrice) :
    ((d.detect_dex_cex now pools cexs).length =
      pools.countP (cexAlertCond d.threshold cexs)) ∧
    (∀ a ∈ d.detect_dex_cex now pools cexs, ∃ p ∈ pools, ∃ cex,
      cexLookup cexs p.symbol = some cex ∧ 0 < p.price_usd ∧ 0 < cex.price_usd ∧
      d.threshold ≤ (max p.price_usd cex.price_usd - min p.price_usd cex.price_usd) /
        min p.price_usd cex.price_usd ∧
      a.symbol = p.symbol ∧ a.arb_type = ArbType.DexToCex ∧
      a.low_price = min p.price_usd cex.price_usd ∧
      a.high_price = max p.price_usd cex.price_usd ∧
      a.diff_pct = (a.high_price - a.low_price) / a.low_price * 100 ∧
      ((a.low_source = dexLabel p ∧ a.high_source = "upbit" ∧ a.low_price = p.price_usd) ∨
       (a.low_source = "upbit" ∧ a.high_source = dexLabel p ∧
         a.low_price = cex.price_usd))) ∧
    ((ArbitrageDetector.mk (3 / 100)).detect_dex_cex 0 [dexPool95] [cexPrice100] =
      [mkCexAlert 0 "SOL" 95 100 (dexLabel dexPool95) "upbit"]) ∧
    ((mkCexAlert 0 "SOL" 95 100 (dexLabel dexPool95) "upbit").low_price = 95 ∧
      (mkCexAlert 0 "SOL" 95 100 (dexLabel dexPool95) "upbit").high_price = 100 ∧
      (mkCexAlert 0 "SOL" 95 100 (dexLabel dexPool95) "upbit").low_source = "ray:0xcc" ∧
      (mkCexAlert 0 "SOL" 95 100 (dexLabel dexPool95) "upbit").high_source = "upbit" ∧
      (mkCexAlert 0 "SOL" 95 100 (dexLabel dexPool95) "upbit").diff_pct = 100 / 19 ∧
      |(mkCexAlert 0 "SOL" 95 100 (dexLabel dexPool95) "upbit").diff_pct - 526 / 100| <
        1 / 100) := by
  refine ⟨?_, ?_, ?_, rfl, rfl, by decide, rfl, by norm_num [mkCexAlert], ?_⟩
  · unfold ArbitrageDetector.detect_dex_cex
    rw [length_filterMap_eq_countP]
    apply List.countP_congr
    intro p _
    rw [detectPairCex_isSome]
  · intro a ha
    unfold ArbitrageDetector.detect_dex_cex at ha
    rcases List.mem_filterMap.mp ha with ⟨p, hpm, hsome⟩
    rcases detectPairCex_some_spec _ _ _ _ _ hsome with ⟨cex, hrest⟩
    exact ⟨p, hpm, cex, hrest⟩
  · norm_num [ArbitrageDetector.detect_dex_cex, detectPairCex, cexLookup, cexEmit,
      mkCexAlert, dexPool95, cexPrice100, dexLabel, List.filterMap_cons,
      List.filterMap_nil, List.find?_cons]
  · rw [show (mkCexAlert 0 "SOL" 95 100 (dexLabel dexPool95) "upbit").diff_pct =
      100 / 19 from by norm_num [mkCexAlert]]
    rw [abs_of_nonneg (by norm_num)]
    norm_num

/-- C5 witness: the per-alert clause of c5_detect_dex_cex applied to the
alert emitted for DEX 95 vs CEX 100 at threshold 0.03. -/
theorem c5_witness :
    ∃ p ∈ [dexPool95], ∃ cex,
      cexLookup [cexPrice100] p.symbol = some cex ∧ 0 < p.price_usd ∧
      0 < cex.price_usd ∧
      (ArbitrageDetector.mk (3 / 100)).threshold ≤
        (max p.price_usd cex.price_usd - min p.price_usd cex.price_usd) /
          min p.price_usd cex.price_usd ∧
      (mkCexAlert 0 "SOL" 95 100 (dexLabel dexPool95) "upbit").symbol = p.symbol ∧
      (mkCexAlert 0 "SOL" 95 100 (dexLabel dexPool95) "upbit").arb_type =
        ArbType.DexToCex ∧
      (mkCexAlert 0 "SOL" 95 100 (dexLabel dexPool95) "upbit").low_price =
        min p.price_usd cex.price_usd ∧
      (mkCexAlert 0 "SOL" 95 100 (dexLabel dexPool95) "upbit").high_price =
        max p.price_usd cex.price_usd ∧
      (mkCexAlert 0 "SOL" 95 100 (dexLabel dexPool95) "upbit").diff_pct =
        ((mkCexAlert 0 "SOL" 95 100 (dexLabel dexPool95) "upbit").high_price -
          (mkCexAlert 0 "SOL" 95 100 (dexLabel dexPool95) "upbit").low_price) /
          (mkCexAlert 0 "SOL" 95 100 (dexLabel dexPool95) "upbit").low_price * 100 ∧
      (((mkCexAlert 0 "SOL" 95 100 (dexLabel dexPool95) "upbit").low_source =
          dexLabel p ∧
        (mkCexAlert 0 "SOL" 95 100 (dexLabel dexPool95) "upbit").high_source =
          "upbit" ∧
        (mkCexAlert 0 "SOL" 95 100 (dexLabel dexPool95) "upbit").low_price =
          p.price_usd) ∨
       ((mkCexAlert 0 "SOL" 95 100 (dexLabel dexPool95) "upbit").low_source =
          "upbit" ∧
        (mkCexAlert 0 "SOL" 95 100 (dexLabel dexPool95) "upbit").high_source =
          dexLabel p ∧
        (mkCexAlert 0 "SOL" 95 100 (dexLabel dexPool95) "upbit").low_price =
          cex.price_usd)) :=
  (c5_detect_dex_cex (ArbitrageDetector.mk (3 / 100)) 0 [dexPool95] [cexPrice100]).2.1
    (mkCexAlert 0 "SOL" 95 100 (dexLabel dexPool95) "upbit")
    (by
      rw [(c5_detect_dex_cex (ArbitrageDetector.mk (3 / 100)) 0 [dexPool95]
        [cexPrice100]).2.2.1]
      exact List.mem_singleton.mpr rfl)

/-- C3 counterexample: on a pair whose first fetch attempt errors but whose
second attempt would succeed, the collector records one failure immediately —
it consults only the first attempt (there is no retry loop in collector.rs
lines 101-158), so the failure is not recorded "only after all attempts have
failed". -/
theorem c3_counterexample :
    (collectPair specFilter (PoolCache.new 120 0) ⟨0, 0, 0⟩
        (fun n => if n = 0 then .fetchError else .success [samplePool])).2.failed = 1 ∧
    (fun n => if n = 0 then FetchOutcome.fetchError else .success [samplePool]) 1 =
      .success [samplePool] ∧
    collectPair specFilter (PoolCache.new 120 0) ⟨0, 0, 0⟩
        (fun n => if n = 0 then .fetchError else .success [samplePool]) =
      collectPair specFilter (PoolCache.new 120 0) ⟨0, 0, 0⟩
        (fun _ => .fetchError) :=
  ⟨rfl, rfl, rfl⟩

/-- C3 amended: the collector performs exactly one fetch attempt per
(source, symbol) pair under the 10 s timeout; the outcome of any later
attempt is never consulted, and on a timeout or an error exactly one failure
is recorded immediately, with no retry and no inter-attempt delay. -/
theorem c3_single_attempt (filter : PoolFilter) (cache : PoolCache)
    (c : CycleCounters) (o o' : Nat → FetchOutcome) (h : o 0 = o' 0) :
    collectPair filter cache c o = collectPair filter cache c o' ∧
    ((collectPair filter cache c o).2.failed = c.failed + 1 ↔
      (o 0 = .fetchError ∨ o 0 = .timedOut)) ∧
    ((collectPair filter cache c o).2.failed = c.failed ↔
      ∃ ps, o 0 = .success ps) ∧
    ((collectPair filter cache c o).2.successful = c.successful + 1 ↔
      ∃ ps, o 0 = .success ps) := by
  refine ⟨by unfold collectPair; rw [h], ?_, ?_, ?_⟩ <;>
    unfold collectPair processFetch <;>
    cases ho : o 0 <;>
    simp [ho]

/-- C3 witness: c3_single_attempt applied to the oracle failing on attempt 0
and succeeding on attempt 1 — the failure counter steps to 1. -/
theorem c3_witness :
    collectPair specFilter (PoolCache.new 120 0) ⟨0, 0, 0⟩
        (fun n => if n = 0 then .fetchError else .success [samplePool]) =
      collectPair specFilter (PoolCache.new 120 0) ⟨0, 0, 0⟩
        (fun n => if n = 0 then FetchOutcome.fetchError else .fetchError) ∧
    ((collectPair specFilter (PoolCache.new 120 0) ⟨0, 0, 0⟩
        (fun n => if n = 0 then .fetchError else .success [samplePool])).2.failed =
        (0 : Nat) + 1 ↔
      ((fun n => if n = 0 then FetchOutcome.fetchError else .success [samplePool]) 0 =
          .fetchError ∨
        (fun n => if n = 0 then FetchOutcome.fetchError else .success [samplePool]) 0 =
          .timedOut)) ∧
    ((collectPair specFilter (PoolCache.new 120 0) ⟨0, 0, 0⟩
        (fun n => if n = 0 then .fetchError else .success [samplePool])).2.failed =
        (0 : Nat) ↔
      ∃ ps, (fun n => if n = 0 then FetchOutcome.fetchError
        else .success [samplePool]) 0 = .success ps) ∧
    ((collectPair specFilter (PoolCache.new 120 0) ⟨0, 0, 0⟩
        (fun n => if n = 0 then .fetchError else .success [samplePool])).2.successful =
        (0 : Nat) + 1 ↔
      ∃ ps, (fun n => if n = 0 then FetchOutcome.fetchError
        else .success [samplePool]) 0 = .success ps) :=
  c3_single_attempt specFilter (PoolCache.new 120 0) ⟨0, 0, 0⟩
    (fun n => if n = 0 then .fetchError else .success [samplePool])
    (fun n => if n = 0 then FetchOutcome.fetchError else .fetchError) rfl

/-- C6: the shared CollectorStats counters are threaded through a whole
collection cycle untouched — collect_progressive increments only its
cycle-local atomics — so after a cycle that performed one successful fetch of
one valid pool (reported in its CollectorResult) the shared counters read by
the /stats endpoint are still all zero. -/
theorem c6_stats_dead (filter : PoolFilter) (sources symbols : List String)
    (outcome : String → String → FetchOutcome) (cache : PoolCache)
    (stats : CollectorStats) :
    ((collect_progressive filter sources symbols outcome cache stats).2.2 = stats) ∧
    ((collect_progressive specFilter ["gecko"] ["ETH"]
        (fun _ _ => .success [samplePool]) (PoolCache.new 120 0)
        CollectorStats.init).1.successful = 1 ∧
      (collect_progressive specFilter ["gecko"] ["ETH"]
        (fun _ _ => .success [samplePool]) (PoolCache.new 120 0)
        CollectorStats.init).1.total = 1 ∧
      (collect_progressive specFilter ["gecko"] ["ETH"]
        (fun _ _ => .success [samplePool]) (PoolCache.new 120 0)
        CollectorStats.init).2.2.total_requests = 0 ∧
      (collect_progressive specFilter ["gecko"] ["ETH"]
        (fun _ _ => .success [samplePool]) (PoolCache.new 120 0)
        CollectorStats.init).2.2.successful = 0 ∧
      (collect_progressive specFilter ["gecko"] ["ETH"]
        (fun _ _ => .success [samplePool]) (PoolCache.new 120 0)
        CollectorStats.init).2.2.failed = 0 ∧
      (collect_progressive specFilter ["gecko"] ["ETH"]
        (fun _ _ => .success [samplePool]) (PoolCache.new 120 0)
        CollectorStats.init).2.2.pools_collected = 0) :=
  ⟨rfl, rfl, rfl, rfl, rfl, rfl, rfl⟩

/-- Helper: when every send in a window succeeds, the chunk loop attempts
each chunk of the window exactly once and reports success. -/
theorem sendChunksAux_all_ok (o : Nat → SendOutcome) :
    ∀ k i, (∀ j, j < k → o (i + j) = .sent) →
      sendChunksAux o i k = (List.range' i k, true) := by
  intro k
  induction k with
  | zero => intro i _; rfl
  | succ k ih =>
    intro i h
    have h0 : o i = .sent := by simpa using h 0 (Nat.succ_pos k)
    have hrest := ih (i + 1) (fun j hj => by
      have h' := h (j + 1) (Nat.succ_lt_succ hj)
      rwa [show i + (j + 1) = i + 1 + j by omega] at h')
    simp only [sendChunksAux, h0, hrest, List.range'_succ]

/-- Helper: a first failure at offset j aborts the chunk loop right there:
chunks 0..j are attempted once each, later chunks are never attempted. -/
theorem sendChunksAux_first_fail (o : Nat → SendOutcome) :
    ∀ j k i, j < k → o (i + j) ≠ .sent → (∀ j', j' < j → o (i + j') = .sent) →
      sendChunksAux o i k = (List.range' i (j + 1), false) := by
  intro j
  induction j with
  | zero =>
    intro k i hjk hfail _
    cases k with
    | zero => omega
    | succ k =>
      have hfail' : o i ≠ .sent := by simpa using hfail
      cases ho : o i with
      | sent => exact absurd ho hfail'
      | errored => simp [sendChunksAux, ho]
      | timedOut => simp [sendChunksAux, ho]
  | succ j ih =>
    intro k i hjk hfail hpre
    cases k with
    | zero => omega
    | succ k =>
      have h0 : o i = .sent := by simpa using hpre 0 (Nat.succ_pos j)
      have hrest := ih k (i + 1) (by omega)
        (by rwa [show i + 1 + j = i + (j + 1) by omega])
        (fun j' hj' => by
          rw [show i + 1 + j' = i + (j' + 1) by omega]
          exact hpre (j' + 1) (by omega))
      simp only [sendChunksAux, h0, hrest, List.range'_succ]

/-- C8: in the per-connection loop, a pool-chunk send that errors or times
out terminates the loop at once — the failing chunk is the last one
attempted, each attempted chunk was attempted exactly once (no retry), the
remaining chunks and the alerts message are never sent and nothing is
buffered; a failed heartbeat send also terminates the loop; the alerts
message's outcome, by contrast, never influences the iteration (the loop
proceeds whether it succeeds or fails), and inbound close or stream end
terminates while pong and other frames do not. -/
theorem c8_backpressure (d : ArbitrageDetector) (now : Int)
    (pools : List PoolData) (o : Nat → SendOutcome) (aOk aOk' : Bool) (i : Nat) :
    (i < (chunksOf 50 pools).length → o i ≠ .sent → (∀ j, j < i → o j = .sent) →
      wsUpdateTick d now pools o aOk =
        (List.range' 0 (i + 1), false, LoopFate.exitLoop)) ∧
    ((∀ j, j < (chunksOf 50 pools).length → o j = .sent) →
      wsUpdateTick d now pools o aOk =
        (List.range' 0 (chunksOf 50 pools).length,
          !(d.detect_dex_dex now pools).isEmpty, LoopFate.proceed)) ∧
    wsUpdateTick d now pools o aOk = wsUpdateTick d now pools o aOk' ∧
    wsHeartbeatTick false = LoopFate.exitLoop ∧
    wsHeartbeatTick true = LoopFate.proceed ∧
    wsInbound none = LoopFate.exitLoop ∧
    wsInbound (some .closeFrame) = LoopFate.exitLoop ∧
    wsInbound (some .pong) = LoopFate.proceed ∧
    wsInbound (some .other) = LoopFate.proceed := by
  refine ⟨?_, ?_, rfl, rfl, rfl, rfl, rfl, rfl, rfl⟩
  · intro hik hfail hpre
    simp only [wsUpdateTick]
    rw [sendChunksAux_first_fail o i (chunksOf 50 pools).length 0 hik
      (by simpa using hfail) (fun j' hj' => by simpa using hpre j' hj')]
    simp
  · intro hall
    simp only [wsUpdateTick]
    rw [sendChunksAux_all_ok o (chunksOf 50 pools).length 0
      (fun j hj => by simpa using hall j hj)]
    simp

/-- C8 witness: a single-chunk snapshot whose send times out — the iteration
attempts exactly chunk 0 and exits; with all sends succeeding the iteration
proceeds regardless of the alert send outcome. -/
theorem c8_witness :
    ((0 : Nat) < (chunksOf 50 [samplePool]).length →
      (fun _ : Nat => SendOutcome.timedOut) 0 ≠ .sent →
      (∀ j, j < 0 → (fun _ : Nat => SendOutcome.timedOut) j = .sent) →
      wsUpdateTick (ArbitrageDetector.mk (3 / 100)) 0 [samplePool]
          (fun _ => SendOutcome.timedOut) true =
        (List.range' 0 1, false, LoopFate.exitLoop)) ∧
    (0 : Nat) < (chunksOf 50 [samplePool]).length ∧
    wsUpdateTick (ArbitrageDetector.mk (3 / 100)) 0 [samplePool]
        (fun _ => SendOutcome.timedOut) true =
      (List.range' 0 1, false, LoopFate.exitLoop) ∧
    wsUpdateTick (ArbitrageDetector.mk (3 / 100)) 0 [samplePool]
        (fun _ => SendOutcome.sent) false =
      wsUpdateTick (ArbitrageDetector.mk (3 / 100)) 0 [samplePool]
        (fun _ => SendOutcome.sent) true := by
  have hmain := c8_backpressure (ArbitrageDetector.mk (3 / 100)) 0 [samplePool]
    (fun _ => SendOutcome.timedOut) true true 0
  have hlen : (0 : Nat) < (chunksOf 50 [samplePool]).length := by
    simp [chunksOf]
  refine ⟨hmain.1, hlen, hmain.1 hlen (by simp) (fun j hj => absurd hj (Nat.not_lt_zero j)), ?_⟩
  exact (c8_backpressure (ArbitrageDetector.mk (3 / 100)) 0 [samplePool]
    (fun _ => SendOutcome.sent) false true 0).2.2.1

/-- Helper: effect of a point update on a task-phase count. -/
theorem countP_set_eq (p : TaskPhase → Bool) :
    ∀ (ts : List TaskPhase) (i : Nat) (a b : TaskPhase), ts[i]? = some a →
      (ts.set i b).countP p =
        ts.countP p + (if p b then 1 else 0) - (if p a then 1 else 0) := by
  intro ts
  induction ts with
  | nil => intro i a b h; simp at h
  | cons x xs ih =>
    intro i a b h
    cases i with
    | zero =>
      simp only [List.getElem?_cons_zero, Option.some_inj] at h
      subst h
      simp only [List.set_cons_zero, List.countP_cons]
      cases hpa : p x <;> cases hpb : p b <;> simp [hpa, hpb]
    | succ i =>
      simp only [List.getElem?_cons_succ] at h
      have hcnt : p a = true → 1 ≤ xs.countP p := by
        intro hpa
        have hmem : a ∈ xs := by
          rcases List.getElem?_eq_some.mp h with ⟨hlt, heq⟩
          exact heq ▸ List.getElem_mem hlt
        exact List.countP_pos_iff.mpr ⟨a, hmem, hpa⟩
      simp only [List.set_cons_succ, List.countP_cons, ih i a b h]
      cases hpa : p a <;> cases hpb : p b <;> cases hpx : p x <;>
        simp [hpa, hpb, hpx]
      all_goals
        first
          | omega
          | (have h1 := hcnt (by assumption); omega)

/-- Helper: permit holders split into fetching and idle holders. -/
theorem activeCount_decomp (ts : List TaskPhase) :
    activeCount ts = inFlightCount ts + ts.countP isIdleActive := by
  unfold activeCount inFlightCount
  induction ts with
  | nil => rfl
  | cons x xs ih =>
    simp only [List.countP_cons, ih]
    cases x with
    | pending => simp [isActive, isFetching, isIdleActive]
    | waiting => simp [isActive, isFetching, isIdleActive]
    | finished => simp [isActive, isFetching, isIdleActive]
    | active b =>
      cases b <;> simp [isActive, isFetching, isIdleActive] <;> omega

/-- C10: with a limiter of n permits, in every state reachable during a
collect_progressive run the number of in-flight fetch calls is at most the
number of permit holders, which never exceeds n — so in-flight fetches never
exceed the permit count. -/
theorem c10_concurrency_bound (n m : Nat) (ts : List TaskPhase)
    (h : CollectReachable n (initTasks m) ts) :
    inFlightCount ts ≤ activeCount ts ∧ activeCount ts ≤ n := by
  induction h with
  | refl =>
    constructor
    · unfold inFlightCount activeCount initTasks
      rw [List.countP_replicate, List.countP_replicate]
      simp [isFetching, isActive]
    · unfold activeCount initTasks
      rw [List.countP_replicate]
      simp [isActive]
  | @step ts ts' hr hs ih =>
    cases hs with
    | start i hi hb =>
      have ha := countP_set_eq isActive ts i TaskPhase.pending TaskPhase.waiting hi
      have hf := countP_set_eq isFetching ts i TaskPhase.pending TaskPhase.waiting hi
      simp [isActive, isFetching] at ha hf
      unfold activeCount inFlightCount at *
      rw [ha, hf]
      exact ih
    | acquire i hi hp =>
      have ha := countP_set_eq isActive ts i TaskPhase.waiting (TaskPhase.active false) hi
      have hf := countP_set_eq isFetching ts i TaskPhase.waiting (TaskPhase.active false) hi
      simp [isActive, isFetching] at ha hf
      unfold activeCount inFlightCount at *
      rw [ha, hf]
      omega
    | beginFetch i hi =>
      have ha := countP_set_eq isActive ts i (TaskPhase.active false) (TaskPhase.active true) hi
      have hf := countP_set_eq isFetching ts i (TaskPhase.active false) (TaskPhase.active true) hi
      simp [isActive, isFetching] at ha hf
      have hidle : 1 ≤ ts.countP isIdleActive := by
        apply List.countP_pos_iff.mpr
        refine ⟨TaskPhase.active false, ?_, rfl⟩
        rcases List.getElem?_eq_some.mp hi with ⟨hlt, heq⟩
        exact heq ▸ List.getElem_mem hlt
      have hdec := activeCount_decomp ts
      unfold activeCount inFlightCount at *
      rw [ha, hf]
      omega
    | endFetch i hi =>
      have ha := countP_set_eq isActive ts i (TaskPhase.active true) (TaskPhase.active false) hi
      have hf := countP_set_eq isFetching ts i (TaskPhase.active true) (TaskPhase.active false) hi
      simp [isActive, isFetching] at ha hf
      unfold activeCount inFlightCount at *
      rw [ha, hf]
      omega
    | finish i hi =>
      have ha := countP_set_eq isActive ts i (TaskPhase.active false) TaskPhase.finished hi
      have hf := countP_set_eq isFetching ts i (TaskPhase.active false) TaskPhase.finished hi
      simp [isActive, isFetching] at ha hf
      have hidle : 1 ≤ ts.countP isIdleActive := by
        apply List.countP_pos_iff.mpr
        refine ⟨TaskPhase.active false, ?_, rfl⟩
        rcases List.getElem?_eq_some.mp hi with ⟨hlt, heq⟩
        exact heq ▸ List.getElem_mem hlt
      have hdec := activeCount_decomp ts
      unfold activeCount inFlightCount at *
      rw [ha, hf]
      omega

/-- C10 witness: with the source's 10 permits and three symbol tasks, after
starting task 0, granting it the permit and opening its fetch, the bound
holds in the reached state. -/
theorem c10_witness :
    inFlightCount ((((initTasks 3).set 0 .waiting).set 0
        (TaskPhase.active false)).set 0 (TaskPhase.active true)) ≤
      activeCount ((((initTasks 3).set 0 .waiting).set 0
        (TaskPhase.active false)).set 0 (TaskPhase.active true)) ∧
    activeCount ((((initTasks 3).set 0 .waiting).set 0
        (TaskPhase.active false)).set 0 (TaskPhase.active true)) ≤ collectorPermits :=
  c10_concurrency_bound collectorPermits 3 _
    (CollectReachable.step
      (CollectReachable.step
        (CollectReachable.step CollectReachable.refl
          (CollectStep.start (initTasks 3) 0 (by decide) (by decide)))
        (CollectStep.acquire ((initTasks 3).set 0 .waiting) 0 (by decide) (by decide)))
      (CollectStep.beginFetch (((initTasks 3).set 0 .waiting).set 0
        (TaskPhase.active false)) 0 (by decide)))


